import Mathlib

/-!
Shallow embedding of `ansible_sphinx.py` (yourlabs/ansible-sphinx), the
Sphinx extension providing Ansible documentation directives, a cross
reference domain, and filesystem scaffolding helpers.

The embedding models:
* the JSON values returned by `ansible-doc -j` (`JVal`);
* the domain object registry and `AnsibleObject.add_target_and_index`;
* the fragment rendering loop of `AnsiblePluginDirective.run`;
* the `functools.cached_property` caching of `PluginMixin.json` and the
  derived sub-views (`options`, `return`, `examples`);
* the error propagation of the metadata fetch (`subprocess.check_output`,
  `json.loads`, key indexing) as an `Except` pipeline;
* `AnsibleDomain.resolve_xref`;
* `PluginMixin.plugin_name`;
* the scaffolding pass `generate_roles` / `generate_modules` / `generate`,
  with the filesystem as a map from output paths to file contents.
-/

namespace AnsibleSphinx

/-- JSON values as parsed by `json.loads`, restricted to the shapes the
extension manipulates.  Lists are lists of strings because the code applies
`', '.join(value)` to list values, which requires string elements. -/
inductive JVal where
  | str (s : String)
  | num (n : Int)
  | boolean (b : Bool)
  | null
  | list (xs : List String)
  | dict (xs : List (String × JVal))

/-- Python `f'{value}'` formatting for the scalar JSON values. -/
def pyFormat : JVal → String
  | .str s => s
  | .num n => toString n
  | .boolean true => "True"
  | .boolean false => "False"
  | .null => "None"
  | .list xs => toString xs
  | .dict _ => ""

/-- `True` exactly on JSON objects (`isinstance(value, dict)`). -/
def JVal.isDict : JVal → Bool
  | .dict _ => true
  | _ => false

/-- Python dict lookup on an association list in insertion order (keys
are unique in every dict the code builds). -/
def lookupD {β : Type} (k : String) : List (String × β) → Option β
  | [] => none
  | (k', v) :: rest => if k = k' then some v else lookupD k rest

/-- Python `d.get(k, default)` on a parsed JSON value: key lookup when the
value is an object, the default otherwise. -/
def jget (v : JVal) (k : String) (default : JVal) : JVal :=
  match v with
  | .dict xs => (lookupD k xs).getD default
  | _ => default

/-- Python `d[k]` on a parsed JSON value: `some` the entry when present,
`none` when the key is missing or the value is not an object (in which case
the Python expression raises). -/
def jIndexOpt (v : JVal) (k : String) : Option JVal :=
  match v with
  | .dict xs => lookupD k xs
  | _ => none

/-! ## Cross-reference registry: `AnsibleObject.add_target_and_index`

The domain data `env.domaindata['ansible']['objects']` is a Python dict
mapping qualified target names to docnames.  It is modelled as an
association list in insertion order, looked up by first match; since
entries are only inserted when the key is absent, keys stay unique. -/

/-- Python `s.replace(':', '.')` (character-wise, as applied to the
directive name such as `ansible:plugin`). -/
def replaceColonDot (s : String) : String :=
  ⟨s.data.map (fun c => if c = ':' then '.' else c)⟩

/-- The qualified target name `f'{self.name.replace(":", ".")}.{name}'`. -/
def targetName (directiveName objName : String) : String :=
  replaceColonDot directiveName ++ "." ++ objName

/-- The state touched by `add_target_and_index`: the domain object
registry, the signature node's `ids`, and the index entries (only the
`name, target_name` pair of each 5-tuple is modelled). -/
structure ObjectState where
  objects : List (String × String)
  signodeIds : List String
  indexEntries : List (String × String)

/-- `AnsibleObject.add_target_and_index(name, sig, signode)`: register the
qualified target name under the current docname only when it is not
already present, and always append an index entry. -/
def add_target_and_index (directiveName docname objName : String)
    (st : ObjectState) : ObjectState :=
  let tn := targetName directiveName objName
  let st' :=
    if (lookupD tn st.objects).isSome then st
    else { st with
            objects := st.objects ++ [(tn, docname)]
            signodeIds := st.signodeIds ++ [tn] }
  { st' with indexEntries := st'.indexEntries ++ [(objName, tn)] }

/-! ## Fragment rendering: `AnsiblePluginDirective.run`

The loop over `self.json.get('doc', {}).items()` builds the list `rst` of
`- **key**: value` lines, skipping the `examples` key and dict values and
joining list values with `', '`. -/

/-- One iteration of the rendering loop: the line contributed by a
`doc` entry, or `none` when the loop `continue`s. -/
def renderDocEntry (k : String) (v : JVal) : Option String :=
  if k = "examples" then none
  else
    match v with
    | .dict _ => none
    | .list xs => some ("- **" ++ k ++ "**: " ++ String.intercalate ", " xs)
    | v => some ("- **" ++ k ++ "**: " ++ pyFormat v)

/-- The `rst` list built by `AnsiblePluginDirective.run` from the entries
of the `doc` mapping. -/
def pluginRunLines (doc : List (String × JVal)) : List String :=
  doc.filterMap (fun kv => renderDocEntry kv.1 kv.2)

/-- The value rendered for an entry that does get a line: list values are
joined with `', '`, scalars are formatted as by an f-string. -/
def renderedValue : JVal → String
  | .list xs => String.intercalate ", " xs
  | v => pyFormat v

/-! ## `PluginMixin.json` caching

`functools.cached_property` computes the property body on first access,
stores the result on the instance, and returns the stored value on every
later access.  The instance state is the optional cached value; each
access reports how many times the external tool was invoked. -/

/-- The memoisation slot a `functools.cached_property` named `json`
installs on a directive instance. -/
structure PluginState where
  jsonCache : Option JVal

/-- A freshly constructed directive instance: nothing cached yet. -/
def freshPluginState : PluginState := ⟨none⟩

/-- One access of `self.json`: `fetched` is the (deterministic) value
`json.loads(subprocess.check_output(...))[self.plugin_name]` for this
instance's plugin name.  Returns the value, the new instance state, and
the number of external tool invocations this access performed. -/
def json_access (fetched : JVal) (s : PluginState) : JVal × PluginState × Nat :=
  match s.jsonCache with
  | some v => (v, s, 0)
  | none => (fetched, ⟨some fetched⟩, 1)

/-- The accesses a directive instance can make to the fetched metadata:
`self.json` itself and the sub-views derived from it by key lookup
(`options`, `return`, `examples` of the respective directive classes). -/
inductive MetaAccess where
  | jsonA
  | optionsA
  | returnsA
  | examplesA

/-- The sub-view each access derives from the parsed JSON value `j`:
`options` is `j.get('doc', {}).get('options', {})`, `returns` is
`j.get('return', None)`, `examples` is `j.get('examples', False)`. -/
def subView (a : MetaAccess) (j : JVal) : JVal :=
  match a with
  | .jsonA => j
  | .optionsA => jget (jget j "doc" (.dict [])) "options" (.dict [])
  | .returnsA => jget j "return" .null
  | .examplesA => jget j "examples" (.boolean false)

/-- Perform one access: every sub-view goes through `self.json` (hence
through the cache) and then does pure key lookups. -/
def doAccess (fetched : JVal) (s : PluginState) (a : MetaAccess) :
    JVal × PluginState × Nat :=
  let (j, s', c) := json_access fetched s
  (subView a j, s', c)

/-- Run a sequence of accesses on one directive instance, accumulating
the total number of external tool invocations. -/
def runAccesses (fetched : JVal) : List MetaAccess → PluginState → PluginState × Nat
  | [], s => (s, 0)
  | a :: rest, s =>
      let (_, s', c) := doAccess fetched s a
      let (s'', c') := runAccesses fetched rest s'
      (s'', c + c')

/-! ## Metadata fetch error propagation

`PluginMixin.json` is `json.loads(subprocess.check_output(...))[name]`
with nothing caught anywhere in the module.  The pipeline is embedded in
`Except`: `check_output` raises `CalledProcessError` on a non-zero exit,
`json.loads` raises on malformed output, and indexing raises when the
plugin key is absent.  `parse` abstracts the `json.loads` parser. -/

/-- The observable result of running the external `ansible-doc` tool. -/
structure ToolRun where
  exitCode : Nat
  stdout : String

/-- The faults the metadata fetch can raise. -/
inductive FetchErr where
  | calledProcessError (code : Nat)
  | jsonDecodeError
  | keyError (k : String)

/-- `subprocess.check_output`: the captured stdout on exit 0, a
`CalledProcessError` otherwise. -/
def check_output (t : ToolRun) : Except FetchErr String :=
  if t.exitCode = 0 then .ok t.stdout else .error (.calledProcessError t.exitCode)

/-- `PluginMixin.json` as a pipeline:
`json.loads(check_output(...))[plugin_name]`; every fault short-circuits,
nothing is caught. -/
def pluginJsonE (parse : String → Option JVal) (t : ToolRun)
    (pluginName : String) : Except FetchErr JVal :=
  match check_output t with
  | .error e => .error e
  | .ok out =>
      match parse out with
      | none => .error .jsonDecodeError
      | some j =>
          match jIndexOpt j pluginName with
          | none => .error (.keyError pluginName)
          | some v => .ok v

/-- The entries of a JSON object (`.items()`), empty otherwise. -/
def dictEntries : JVal → List (String × JVal)
  | .dict xs => xs
  | _ => []

/-- `AnsiblePluginDirective.run` up to its rendered fragment: any fault of
the metadata fetch propagates, uncaught, and no output is produced. -/
def pluginDirectiveRunE (parse : String → Option JVal) (t : ToolRun)
    (pluginName : String) : Except FetchErr (List String) :=
  match pluginJsonE parse t pluginName with
  | .error e => .error e
  | .ok j => .ok (pluginRunLines (dictEntries (jget j "doc" (.dict []))))

/-! ## `AnsibleDomain.resolve_xref` -/

/-- The reference node `make_refnode` builds: it points at the target
document `todocname` under anchor `targetid`. -/
structure RefNode where
  todocname : String
  targetid : String
deriving DecidableEq

/-- `AnsibleDomain.resolve_xref`: look `ansible.<typ>.<target>` up in the
domain's object registry; build a reference node to the registered
document if found, implicitly return `None` otherwise. -/
def resolve_xref (objects : List (String × String)) (typ target : String) :
    Option RefNode :=
  let target_name := "ansible." ++ typ ++ "." ++ target
  match lookupD target_name objects with
  | some doc => some ⟨doc, target_name⟩
  | none => none

/-! ## `PluginMixin.plugin_name` -/

/-- Python `str.split` with a one-character separator, on the character
list: splits at every occurrence, keeping empty pieces, and always
returns at least one piece (`''.split(sep) == ['']`). -/
def pySplitAux (sep : Char) : List Char → List Char → List (List Char)
  | [], acc => [acc.reverse]
  | c :: rest, acc =>
      if c = sep then acc.reverse :: pySplitAux sep rest []
      else pySplitAux sep rest (c :: acc)

/-- Python `s.split(sep)` for a one-character separator. -/
def pySplit (s : String) (sep : Char) : List String :=
  (pySplitAux sep s.data []).map (fun l => ⟨l⟩)

/-- `PluginMixin.plugin_name`:
`'.'.join(self.arguments[0].split('.')[:3]).split(' ')[0]`. -/
def plugin_name (arg : String) : String :=
  ((pySplit (String.intercalate "." ((pySplit arg '.').take 3)) ' ').headD "")

/-- Spec-side reading of the same computation: the first three
dot-separated components joined with dots, truncated at the first space. -/
def truncAtFirstSpace (s : String) : String :=
  ⟨s.data.takeWhile (fun c => c ≠ ' ')⟩

/-- Spec-side plugin name: join the first three dot-separated components
with dots, then truncate at the first space. -/
def pluginNameSpec (arg : String) : String :=
  truncAtFirstSpace (String.intercalate "." ((pySplit arg '.').take 3))

/-! ## Scaffolding pass: `generate_roles`, `generate_modules`, `generate`

The filesystem below `docs_path` is a map from output paths to file
contents.  Output paths are structured (`roles/<name>.md`,
`roles/index.rst`, `modules/<name>.rst`, `modules/index.rst`), which
keeps the distinctness of the four shapes explicit. -/

/-- The files the scaffolding pass writes below `docs_path`. -/
inductive OutPath where
  | rolePage (name : String)
  | rolesIndex
  | modulePage (name : String)
  | modulesIndex
deriving DecidableEq

/-- A directory under `roles/` as `generate_roles` sees it: its name and
the content of its `README.md` when that file exists. -/
structure Role where
  name : String
  readme : Option String
deriving DecidableEq

/-- A concrete two-role tree where both roles have a README. -/
def twoRoles : List Role := [⟨"alpha", some "A"⟩, ⟨"beta", some "B"⟩]

/-- The collection tree consumed by `generate`: the `galaxy.yml`
namespace and name fields, the entries of `roles/` in iteration order,
and the file names of `plugins/modules` in iteration order. -/
structure CollectionTree where
  nsField : String
  nameField : String
  roles : List Role
  moduleFiles : List String

/-- `collection_prefix`: `'.'.join([data['namespace'], data['name']])`. -/
def collectionFqcn (t : CollectionTree) : String :=
  t.nsField ++ "." ++ t.nameField

/-- The loop of `generate_roles`: skip roles without a `README.md`,
otherwise record the role name and copy the README to
`roles/<name>.md`.  Returns the accumulated `role_names` and the page
writes, both in iteration order. -/
def rolesLoop : List Role → List String × List (OutPath × String)
  | [] => ([], [])
  | r :: rest =>
      match r.readme with
      | none => rolesLoop rest
      | some content =>
          let (names, writes) := rolesLoop rest
          (r.name :: names, (.rolePage r.name, content) :: writes)

/-- The `HEADER` literal of `generate_roles`. -/
def rolesHeader : String :=
  "Role documentation\n==================\n\n.. _Roles_list:\n\n.. toctree::\n   :maxdepth: 1\n   :caption: Roles:\n"

/-- The content of `roles/index.rst`: the header followed by one
`\n   <name>` entry per recorded role name. -/
def rolesIndexContent (names : List String) : String :=
  rolesHeader ++ String.join (names.map (fun n => "\n   " ++ n))

/-- `generate_roles` as the list of file writes it performs, in order. -/
def generateRolesWrites (roles : List Role) : List (OutPath × String) :=
  (rolesLoop roles).2 ++ [(.rolesIndex, rolesIndexContent (rolesLoop roles).1)]

/-- The dedented stub `generate_modules` writes for one module
(`textwrap.dedent` of the f-string template). -/
def moduleStub (fqcn m : String) : String :=
  "\n" ++ fqcn ++ "." ++ m ++ "\n===========================\n\n.. ansible:plugin:: " ++ fqcn ++ "." ++ m ++ "\n"

/-- The loop of `generate_modules`: skip `__init__.py`, strip the last
three characters (`.py`) from the file name, record the module name and
write the stub page. -/
def modulesLoop (fqcn : String) : List String → List String × List (OutPath × String)
  | [] => ([], [])
  | f :: rest =>
      if f = "__init__.py" then modulesLoop fqcn rest
      else
        let m := f.dropRight 3
        let (names, writes) := modulesLoop fqcn rest
        (m :: names, (.modulePage m, moduleStub fqcn m) :: writes)

/-- The `HEADER` literal of `generate_modules`. -/
def modulesHeader : String :=
  "Module documentation\n====================\n\n.. _modules_list:\n\n.. toctree::\n   :maxdepth: 1\n   :caption: modules:\n"

/-- The content of `modules/index.rst`. -/
def modulesIndexContent (names : List String) : String :=
  modulesHeader ++ String.join (names.map (fun n => "\n   " ++ n))

/-- `generate_modules` as the list of file writes it performs. -/
def generateModulesWrites (fqcn : String) (files : List String) : List (OutPath × String) :=
  (modulesLoop fqcn files).2 ++ [(.modulesIndex, modulesIndexContent (modulesLoop fqcn files).1)]

/-- `generate`: `generate_roles` then `generate_modules`. -/
def generateWrites (t : CollectionTree) : List (OutPath × String) :=
  generateRolesWrites t.roles ++ generateModulesWrites (collectionFqcn t) t.moduleFiles

/-- The docs filesystem: content of each output path, when it exists. -/
def FS : Type := OutPath → Option String

/-- Writing one file (mode `w`/`w+` truncates: the new content replaces
whatever was there). -/
def writeFile (fs : FS) (p : OutPath) (c : String) : FS :=
  fun q => if q = p then some c else fs q

/-- Apply a list of writes in order. -/
def applyWrites (ws : List (OutPath × String)) (fs : FS) : FS :=
  match ws with
  | [] => fs
  | (p, c) :: rest => applyWrites rest (writeFile fs p c)

/-- Run the scaffolding pass `generate(collection_path, docs_path)` on a
docs filesystem. -/
def runGenerate (t : CollectionTree) (fs : FS) : FS :=
  applyWrites (generateWrites t) fs

/-- The last content written to a path by a list of writes, if any. -/
def lastVal (ws : List (OutPath × String)) (q : OutPath) : Option String :=
  match ws with
  | [] => none
  | (p, c) :: rest =>
      match lastVal rest q with
      | some c' => some c'
      | none => if q = p then some c else none

/-- A concrete role list where the first role has no README. -/
def mixedRoles : List Role := [⟨"a", none⟩, ⟨"b", some "B"⟩]

/-- The README-less role of `mixedRoles`. -/
def roleNoReadme : Role := ⟨"a", none⟩

/-! ## Helper lemmas -/

/-- Looking a key up after appending an entry for that key succeeds. -/
theorem lookupD_append_self (l : List (String × String)) (k d : String) :
    (lookupD k (l ++ [(k, d)])).isSome := by
  induction l with
  | nil => simp [lookupD]
  | cons a l ih =>
      obtain ⟨k', v⟩ := a
      rw [List.cons_append, lookupD]
      by_cases h : k = k'
      · simp [h]
      · simpa [h] using ih

/-- When the target name is already registered, `add_target_and_index`
leaves the registry untouched. -/
theorem add_objects_of_present (dn d n : String) (st : ObjectState)
    (h : (lookupD (targetName dn n) st.objects).isSome) :
    (add_target_and_index dn d n st).objects = st.objects := by
  simp [add_target_and_index, h]

/-- When the target name is absent, `add_target_and_index` appends the
new registry entry. -/
theorem add_objects_of_absent (dn d n : String) (st : ObjectState)
    (h : lookupD (targetName dn n) st.objects = none) :
    (add_target_and_index dn d n st).objects
      = st.objects ++ [(targetName dn n, d)] := by
  simp [add_target_and_index, h]

/-- After any `add_target_and_index` call, the target name is
registered. -/
theorem add_registers (dn d n : String) (st : ObjectState) :
    (lookupD (targetName dn n) (add_target_and_index dn d n st).objects).isSome := by
  by_cases h : (lookupD (targetName dn n) st.objects).isSome
  · rw [add_objects_of_present dn d n st h]; exact h
  · rw [add_objects_of_absent dn d n st (Option.not_isSome_iff_eq_none.mp h)]
    exact lookupD_append_self _ _ _

/-- Appending on the right of a fixed string is injective. -/
theorem string_append_right_inj (p a b : String) (h : p ++ a = p ++ b) : a = b := by
  have hd : (p ++ a).data = (p ++ b).data := by rw [h]
  rw [String.data_append, String.data_append] at hd
  exact String.ext (List.append_cancel_left hd)

/-- Two object names yield two qualified target names under the same
directive name only if they are equal. -/
theorem targetName_inj (dn n1 n2 : String) (h : targetName dn n1 = targetName dn n2) :
    n1 = n2 :=
  string_append_right_inj (replaceColonDot dn ++ ".") n1 n2 (by
    simpa [targetName, String.append_assoc] using h)

end AnsibleSphinx

namespace AnsibleSphinx

/-- C1 — Registration of cross-reference targets is first-wins: once a
qualified target name is in the object registry, a second
`add_target_and_index` call with the same object name leaves the registry
(and hence the stored document reference) unchanged; and registering two
distinct object names on a fresh registry stores two distinct entries. -/
theorem add_target_first_wins (dn n doc1 doc2 : String) (st : ObjectState) :
    (add_target_and_index dn doc2 n (add_target_and_index dn doc1 n st)).objects
      = (add_target_and_index dn doc1 n st).objects
    ∧ (∀ n1 n2 d1 d2 : String, n1 ≠ n2 →
        (add_target_and_index dn d2 n2
            (add_target_and_index dn d1 n1 ⟨[], [], []⟩)).objects
          = [(targetName dn n1, d1), (targetName dn n2, d2)]
        ∧ targetName dn n1 ≠ targetName dn n2) := by
  constructor
  · exact add_objects_of_present dn doc2 n _ (add_registers dn doc1 n st)
  · intro n1 n2 d1 d2 hne
    have htn : targetName dn n1 ≠ targetName dn n2 := fun h => hne (targetName_inj dn n1 n2 h)
    refine ⟨?_, htn⟩
    have h1 : (add_target_and_index dn d1 n1 (⟨[], [], []⟩ : ObjectState)).objects
        = [(targetName dn n1, d1)] := by
      simpa using add_objects_of_absent dn d1 n1 ⟨[], [], []⟩ rfl
    have h2 : lookupD (targetName dn n2)
        (add_target_and_index dn d1 n1 (⟨[], [], []⟩ : ObjectState)).objects = none := by
      rw [h1]; simp [lookupD, htn.symm]
    rw [add_objects_of_absent dn d2 n2 _ h2, h1]
    rfl

/-- Witness for `add_target_first_wins` at concrete inputs. -/
theorem add_target_first_wins_witness :
    (add_target_and_index "ansible:plugin" "doc2" "x"
        (add_target_and_index "ansible:plugin" "doc1" "x" ⟨[], [], []⟩)).objects
      = (add_target_and_index "ansible:plugin" "doc1" "x" ⟨[], [], []⟩).objects
    ∧ (add_target_and_index "ansible:plugin" "db" "b"
        (add_target_and_index "ansible:plugin" "da" "a" ⟨[], [], []⟩)).objects
      = [(targetName "ansible:plugin" "a", "da"), (targetName "ansible:plugin" "b", "db")]
    ∧ targetName "ansible:plugin" "a" ≠ targetName "ansible:plugin" "b" := by
  refine ⟨(add_target_first_wins "ansible:plugin" "x" "doc1" "doc2" ⟨[], [], []⟩).1, ?_, ?_⟩
  · exact ((add_target_first_wins "ansible:plugin" "x" "doc1" "doc2" ⟨[], [], []⟩).2
      "a" "b" "da" "db" (by decide)).1
  · exact ((add_target_first_wins "ansible:plugin" "x" "doc1" "doc2" ⟨[], [], []⟩).2
      "a" "b" "da" "db" (by decide)).2

/-- C2 counterexample — a `doc` mapping with a dict-valued key other than
`examples` renders no line at all for that key: the loop `continue`s on
`isinstance(value, dict)`, so the claim "exactly one line per key except
`examples`" fails at this input. -/
theorem plugin_run_lines_dict_counterexample :
    pluginRunLines [("options", JVal.dict [])] = []
    ∧ "options" ≠ "examples" := by
  exact ⟨rfl, by decide⟩

/-- C2 amended — the rendered fragment contains exactly one
`- **key**: value` line per `doc` entry whose key is not `examples` and
whose value is not a mapping, in order, with list values joined by `', '`;
`examples` and mapping-valued keys get no line. -/
theorem plugin_run_lines_spec (doc : List (String × JVal)) :
    pluginRunLines doc
      = (doc.filter (fun kv => kv.1 != "examples" && !kv.2.isDict)).map
          (fun kv => "- **" ++ kv.1 ++ "**: " ++ renderedValue kv.2) := by
  induction doc with
  | nil => rfl
  | cons kv rest ih =>
      obtain ⟨k, v⟩ := kv
      by_cases hk : k = "examples"
      · subst hk
        simp only [pluginRunLines, List.filterMap_cons, List.filter_cons,
          renderDocEntry, if_pos rfl, bne_self_eq_false, Bool.false_and,
          if_false] at ih ⊢
        exact ih
      · cases v <;>
          simp only [pluginRunLines, List.filterMap_cons, List.filter_cons,
            renderDocEntry, hk, if_false, ite_false, JVal.isDict,
            renderedValue, bne_iff_ne, ne_eq, not_false_eq_true,
            Bool.not_true, Bool.not_false, Bool.and_true, Bool.and_false,
            if_true, ite_true, List.map_cons, List.cons.injEq, true_and,
            pyFormat] at ih ⊢ <;>
          simp_all

end AnsibleSphinx

namespace AnsibleSphinx

/-- The role names accumulated by the `generate_roles` loop are the names
of the roles that have a `README.md`, in iteration order. -/
theorem rolesLoop_names (roles : List Role) :
    (rolesLoop roles).1 = (roles.filter (fun r => r.readme.isSome)).map Role.name := by
  induction roles with
  | nil => rfl
  | cons r rest ih =>
      cases h : r.readme <;>
        simp [rolesLoop, List.filter_cons, h, ih]

/-- The page writes of the `generate_roles` loop copy the README of each
role that has one to `roles/<name>.md`, in iteration order. -/
theorem rolesLoop_writes (roles : List Role) :
    (rolesLoop roles).2 = (roles.filter (fun r => r.readme.isSome)).map
      (fun r => ((OutPath.rolePage r.name : OutPath), r.readme.getD "")) := by
  induction roles with
  | nil => rfl
  | cons r rest ih =>
      cases h : r.readme <;>
        simp [rolesLoop, List.filter_cons, h, ih]

/-- The module names accumulated by the `generate_modules` loop are the
names (file name minus the last three characters) of all files except
`__init__.py`, in iteration order. -/
theorem modulesLoop_names (fqcn : String) (files : List String) :
    (modulesLoop fqcn files).1
      = (files.filter (fun f => f != "__init__.py")).map (fun f => f.dropRight 3) := by
  induction files with
  | nil => rfl
  | cons f rest ih =>
      by_cases h : f = "__init__.py" <;>
        simp [modulesLoop, List.filter_cons, h, ih]

/-- The page writes of the `generate_modules` loop write one stub per
file except `__init__.py`, in iteration order. -/
theorem modulesLoop_writes (fqcn : String) (files : List String) :
    (modulesLoop fqcn files).2
      = (files.filter (fun f => f != "__init__.py")).map
          (fun f => ((OutPath.modulePage (f.dropRight 3) : OutPath),
                      moduleStub fqcn (f.dropRight 3))) := by
  induction files with
  | nil => rfl
  | cons f rest ih =>
      by_cases h : f = "__init__.py" <;>
        simp [modulesLoop, List.filter_cons, h, ih]

/-- C3 — on a tree where every role directory has a `README.md`,
`generate_roles` copies each README to `roles/<name>.md` and writes an
index listing exactly the N role names, in iteration order. -/
theorem generate_roles_all_readmes (roles : List Role)
    (h : ∀ r ∈ roles, r.readme.isSome) :
    (rolesLoop roles).2
        = roles.map (fun r => ((OutPath.rolePage r.name : OutPath), r.readme.getD ""))
    ∧ (rolesLoop roles).1 = roles.map Role.name
    ∧ generateRolesWrites roles
        = roles.map (fun r => ((OutPath.rolePage r.name : OutPath), r.readme.getD ""))
          ++ [(OutPath.rolesIndex, rolesIndexContent (roles.map Role.name))] := by
  have hfilter : roles.filter (fun r => r.readme.isSome) = roles :=
    List.filter_eq_self.mpr h
  have h1 := rolesLoop_writes roles
  have h2 := rolesLoop_names roles
  rw [hfilter] at h1 h2
  exact ⟨h1, h2, by rw [generateRolesWrites, h1, h2]⟩

/-- Witness for `generate_roles_all_readmes` on a two-role tree. -/
theorem generate_roles_all_readmes_witness :
    (rolesLoop twoRoles).2
        = twoRoles.map
            (fun r => ((OutPath.rolePage r.name : OutPath), r.readme.getD ""))
    ∧ (rolesLoop twoRoles).1 = twoRoles.map Role.name
    ∧ generateRolesWrites twoRoles
        = twoRoles.map
            (fun r => ((OutPath.rolePage r.name : OutPath), r.readme.getD ""))
          ++ [(OutPath.rolesIndex, rolesIndexContent (twoRoles.map Role.name))] :=
  generate_roles_all_readmes twoRoles (by decide)

end AnsibleSphinx

namespace AnsibleSphinx

/-- C8 — a role directory without a `README.md` is silently skipped:
no page is written for it and its name is absent from the roles index,
while every role that does have a README is processed normally. -/
theorem generate_roles_skips_missing_readme (roles : List Role) (r : Role)
    (hr : r ∈ roles) (hnone : r.readme = none)
    (hnodup : (roles.map Role.name).Nodup) :
    r.name ∉ (rolesLoop roles).1
    ∧ (∀ w ∈ generateRolesWrites roles, w.1 ≠ OutPath.rolePage r.name)
    ∧ ∀ r' ∈ roles, r'.readme.isSome →
        r'.name ∈ (rolesLoop roles).1
        ∧ ((OutPath.rolePage r'.name : OutPath), r'.readme.getD "")
            ∈ (rolesLoop roles).2 := by
  have hinj := List.inj_on_of_nodup_map hnodup
  refine ⟨?_, ?_, ?_⟩
  · intro hmem
    rw [rolesLoop_names] at hmem
    obtain ⟨r', hr', hname⟩ := List.mem_map.mp hmem
    obtain ⟨hr'mem, hsome⟩ := List.mem_filter.mp hr'
    have : r' = r := hinj hr'mem hr hname
    rw [this, hnone] at hsome
    exact Bool.false_ne_true hsome
  · intro w hw
    rw [generateRolesWrites] at hw
    rcases List.mem_append.mp hw with hw | hw
    · rw [rolesLoop_writes] at hw
      obtain ⟨r', hr', hweq⟩ := List.mem_map.mp hw
      obtain ⟨hr'mem, hsome⟩ := List.mem_filter.mp hr'
      intro heq
      rw [← hweq] at heq
      have hname : r'.name = r.name := by
        simpa using heq
      have : r' = r := hinj hr'mem hr hname
      rw [this, hnone] at hsome
      exact Bool.false_ne_true hsome
    · rw [List.mem_singleton] at hw
      rw [hw]
      simp
  · intro r' hr' hsome
    have hmemf : r' ∈ roles.filter (fun r => r.readme.isSome) :=
      List.mem_filter.mpr ⟨hr', hsome⟩
    constructor
    · rw [rolesLoop_names]
      exact List.mem_map.mpr ⟨r', hmemf, rfl⟩
    · rw [rolesLoop_writes]
      exact List.mem_map.mpr ⟨r', hmemf, rfl⟩

/-- Witness for `generate_roles_skips_missing_readme` on a tree with one
README-less role and one documented role. -/
theorem generate_roles_skips_missing_readme_witness :
    roleNoReadme.name ∉ (rolesLoop mixedRoles).1
    ∧ (∀ w ∈ generateRolesWrites mixedRoles, w.1 ≠ OutPath.rolePage roleNoReadme.name)
    ∧ ∀ r' ∈ mixedRoles, r'.readme.isSome →
        r'.name ∈ (rolesLoop mixedRoles).1
        ∧ ((OutPath.rolePage r'.name : OutPath), r'.readme.getD "")
            ∈ (rolesLoop mixedRoles).2 :=
  generate_roles_skips_missing_readme mixedRoles roleNoReadme
    (by decide) rfl (by decide)

/-- C4 counterexample — a `plugins/modules` directory holding exactly the
one file `__init__.py` yields an empty module list and an index listing
no entries, although the directory has M = 1 files: `generate_modules`
skips `__init__.py`. -/
theorem generate_modules_init_counterexample :
    (modulesLoop "ns.col" ["__init__.py"]).1 = []
    ∧ generateModulesWrites "ns.col" ["__init__.py"]
        = [(OutPath.modulesIndex, modulesIndexContent [])]
    ∧ List.length ["__init__.py"] = 1 :=
  ⟨rfl, rfl, rfl⟩

/-- C4 amended — for every collection tree, `generate_modules` writes one
stub page per file of `plugins/modules` other than `__init__.py`, and an
index listing exactly the names (file name minus `.py`) of those files,
in the order they were discovered; `__init__.py` is skipped. -/
theorem generate_modules_stub_per_file (fqcn : String) (files : List String) :
    (modulesLoop fqcn files).1
      = (files.filter (fun f => f != "__init__.py")).map (fun f => f.dropRight 3)
    ∧ (modulesLoop fqcn files).2
      = (files.filter (fun f => f != "__init__.py")).map
          (fun f => ((OutPath.modulePage (f.dropRight 3) : OutPath),
                      moduleStub fqcn (f.dropRight 3)))
    ∧ generateModulesWrites fqcn files
      = (files.filter (fun f => f != "__init__.py")).map
          (fun f => ((OutPath.modulePage (f.dropRight 3) : OutPath),
                      moduleStub fqcn (f.dropRight 3)))
        ++ [(OutPath.modulesIndex, modulesIndexContent
              ((files.filter (fun f => f != "__init__.py")).map (fun f => f.dropRight 3)))] :=
  ⟨modulesLoop_names fqcn files, modulesLoop_writes fqcn files, by
    rw [generateModulesWrites, modulesLoop_names, modulesLoop_writes]⟩

/-- `applyWrites` is last-write-wins on each path. -/
theorem applyWrites_apply (ws : List (OutPath × String)) (fs : FS) (q : OutPath) :
    applyWrites ws fs q = (lastVal ws q).elim (fs q) some := by
  induction ws generalizing fs with
  | nil => rfl
  | cons pc rest ih =>
      obtain ⟨p, c⟩ := pc
      rw [applyWrites, ih]
      cases h : lastVal rest q with
      | some c' => simp [lastVal, h]
      | none =>
          by_cases hq : q = p
          · subst hq
            simp [lastVal, h, writeFile]
          · simp [lastVal, h, hq, writeFile]

/-- C5 — the scaffolding pass `generate` is idempotent: running it twice
on the same collection tree leaves every output file with content
byte-identical to the state after the first run. -/
theorem generate_idempotent (t : CollectionTree) (fs : FS) :
    runGenerate t (runGenerate t fs) = runGenerate t fs := by
  funext q
  show applyWrites (generateWrites t) (applyWrites (generateWrites t) fs) q
      = applyWrites (generateWrites t) fs q
  simp only [applyWrites_apply]
  cases h : lastVal (generateWrites t) q <;> simp

end AnsibleSphinx

namespace AnsibleSphinx

/-- From a state whose cache is filled, any further accesses invoke the
external tool zero times and leave the cache untouched. -/
theorem runAccesses_cached (fetched v : JVal) (trace : List MetaAccess) :
    runAccesses fetched trace ⟨some v⟩ = (⟨some v⟩, 0) := by
  induction trace with
  | nil => rfl
  | cons a rest ih =>
      simp [runAccesses, doAccess, json_access, ih]

/-- C6 — over the lifetime of one directive instance the external tool
is invoked at most once, whatever sequence of `json` / sub-view accesses
happens; and once the cache is filled, every access performs zero
invocations and returns its sub-view by key lookup on the single cached
result. -/
theorem json_fetched_once (fetched : JVal) (trace : List MetaAccess) :
    (runAccesses fetched trace freshPluginState).2 ≤ 1
    ∧ ∀ (s : PluginState) (v : JVal) (a : MetaAccess), s.jsonCache = some v →
        doAccess fetched s a = (subView a v, s, 0) := by
  constructor
  · cases trace with
    | nil => simp [runAccesses]
    | cons a rest =>
        simp [runAccesses, doAccess, json_access, freshPluginState,
          runAccesses_cached]
  · intro s v a h
    obtain ⟨c⟩ := s
    cases h
    rfl

/-- Witness for `json_fetched_once`: three accesses on a fresh instance
invoke the tool at most once, and an access on a cached instance does a
pure key lookup. -/
theorem json_fetched_once_witness :
    (runAccesses JVal.null [MetaAccess.jsonA, MetaAccess.optionsA, MetaAccess.returnsA]
        freshPluginState).2 ≤ 1
    ∧ doAccess JVal.null ⟨some JVal.null⟩ MetaAccess.optionsA
        = (subView MetaAccess.optionsA JVal.null, ⟨some JVal.null⟩, 0) :=
  ⟨(json_fetched_once JVal.null [MetaAccess.jsonA, MetaAccess.optionsA, MetaAccess.returnsA]).1,
    (json_fetched_once JVal.null []).2 ⟨some JVal.null⟩ JVal.null MetaAccess.optionsA rfl⟩

/-- C7 — when the external tool exits non-zero, or its stdout is not
well-formed JSON, or the parsed JSON does not contain the plugin key, the
metadata fetch yields an uncaught error and the directive produces no
output: the same error propagates out of `run`. -/
theorem fetch_error_propagates (parse : String → Option JVal) (t : ToolRun)
    (pn : String)
    (h : t.exitCode ≠ 0 ∨ parse t.stdout = none
         ∨ ∀ j, parse t.stdout = some j → jIndexOpt j pn = none) :
    ∃ e, pluginJsonE parse t pn = Except.error e
      ∧ pluginDirectiveRunE parse t pn = Except.error e := by
  have hrun : ∀ e, pluginJsonE parse t pn = Except.error e →
      pluginDirectiveRunE parse t pn = Except.error e := by
    intro e he
    rw [pluginDirectiveRunE, he]
  by_cases hexit : t.exitCode = 0
  · have hco : check_output t = Except.ok t.stdout := by
      simp [check_output, hexit]
    cases hp : parse t.stdout with
    | none =>
        refine ⟨.jsonDecodeError, ?_, ?_⟩
        · rw [pluginJsonE, hco]
          simp [hp]
        · exact hrun _ (by rw [pluginJsonE, hco]; simp [hp])
    | some j =>
        have hkey : jIndexOpt j pn = none := by
          rcases h with h1 | h2 | h3
          · exact absurd hexit h1
          · rw [h2] at hp; cases hp
          · exact h3 j hp
        refine ⟨.keyError pn, ?_, ?_⟩
        · rw [pluginJsonE, hco]
          simp [hp, hkey]
        · exact hrun _ (by rw [pluginJsonE, hco]; simp [hp, hkey])
  · have hco : check_output t = Except.error (.calledProcessError t.exitCode) := by
      simp [check_output, hexit]
    refine ⟨.calledProcessError t.exitCode, ?_, ?_⟩
    · rw [pluginJsonE, hco]
    · exact hrun _ (by rw [pluginJsonE, hco])

/-- Witness for `fetch_error_propagates`: a non-zero tool exit makes both
the fetch and the directive run fail with the same error. -/
theorem fetch_error_propagates_witness :
    ∃ e, pluginJsonE (fun _ => none) ⟨1, ""⟩ "a.b.c" = Except.error e
      ∧ pluginDirectiveRunE (fun _ => none) ⟨1, ""⟩ "a.b.c" = Except.error e :=
  fetch_error_propagates (fun _ => none) ⟨1, ""⟩ "a.b.c" (Or.inl (by decide))

/-- C9 — `resolve_xref` returns a reference node pointing at the
registered defining document exactly when `ansible.<typ>.<target>` is in
the object registry, and `None` exactly when it is not. -/
theorem resolve_xref_spec (objects : List (String × String)) (typ target : String) :
    (∀ r : RefNode, resolve_xref objects typ target = some r
        ↔ lookupD ("ansible." ++ typ ++ "." ++ target) objects = some r.todocname
          ∧ r.targetid = "ansible." ++ typ ++ "." ++ target)
    ∧ (resolve_xref objects typ target = none
        ↔ lookupD ("ansible." ++ typ ++ "." ++ target) objects = none) := by
  constructor
  · intro r
    obtain ⟨rd, rt⟩ := r
    cases h : lookupD ("ansible." ++ typ ++ "." ++ target) objects with
    | none => simp [resolve_xref, h]
    | some doc =>
        simp only [resolve_xref, h, Option.some.injEq, RefNode.mk.injEq]
        constructor
        · rintro ⟨h1, h2⟩
          simp_all
        · rintro ⟨h1, h2⟩
          simp_all
  · cases h : lookupD ("ansible." ++ typ ++ "." ++ target) objects with
    | none => simp [resolve_xref, h]
    | some doc => simp [resolve_xref, h]

end AnsibleSphinx

namespace AnsibleSphinx

/-- The first piece of a Python split is the run of characters before the
first separator occurrence. -/
theorem pySplitAux_headD (sep : Char) (l acc : List Char) :
    (pySplitAux sep l acc).headD [] = acc.reverse ++ l.takeWhile (fun c => c ≠ sep) := by
  induction l generalizing acc with
  | nil => simp [pySplitAux]
  | cons c rest ih =>
      by_cases hc : c = sep
      · subst hc
        simp [pySplitAux, List.takeWhile_cons]
      · rw [pySplitAux, if_neg hc, ih, List.takeWhile_cons]
        simp [hc]

/-- Lifting `headD` through the `String.mk` map. -/
theorem headD_map_mk (xs : List (List Char)) :
    (xs.map (fun l => (⟨l⟩ : String))).headD "" = ⟨xs.headD []⟩ := by
  cases xs <;> rfl

/-- The first piece of `s.split(sep)` is `s` truncated at the first
occurrence of `sep`. -/
theorem pySplit_headD (s : String) (sep : Char) :
    (pySplit s sep).headD "" = ⟨s.data.takeWhile (fun c => c ≠ sep)⟩ := by
  rw [pySplit, headD_map_mk, pySplitAux_headD]
  rfl

/-- C10 — the plugin name passed to `ansible-doc` is exactly the first
three dot-separated components of the directive argument joined with
dots, truncated at the first space; later components and anything after a
space are discarded. -/
theorem plugin_name_spec (arg : String) :
    plugin_name arg = pluginNameSpec arg := by
  rw [plugin_name, pluginNameSpec, truncAtFirstSpace, pySplit_headD]

end AnsibleSphinx

namespace AnsibleSphinx

/-- Witness for `resolve_xref_spec`: a registered target resolves to a
node pointing at its defining document, an unregistered one to `None`. -/
theorem resolve_xref_spec_witness :
    resolve_xref [("ansible.plugin.ns.col.mod", "docA")] "plugin" "ns.col.mod"
      = some ⟨"docA", "ansible.plugin.ns.col.mod"⟩
    ∧ resolve_xref [("ansible.plugin.ns.col.mod", "docA")] "role" "other"
      = none :=
  ⟨((resolve_xref_spec [("ansible.plugin.ns.col.mod", "docA")] "plugin" "ns.col.mod").1
      ⟨"docA", "ansible.plugin.ns.col.mod"⟩).mpr ⟨by decide, by decide⟩,
    (resolve_xref_spec [("ansible.plugin.ns.col.mod", "docA")] "role" "other").2.mpr
      (by decide)⟩

end AnsibleSphinx
